import Mathlib

/-!
Verification of the snapshot field-extraction utility (postProcess/getData.c).

The program samples two derived fields (a log-scaled strain-rate invariant and
a velocity magnitude) from a restored simulation snapshot onto a regular
Cartesian grid and streams the rows as text.

Modelling conventions:
* C doubles are embedded as rationals; the math-library calls log and sqrt,
  which are external to the pipeline logic, are abstract parameters.
* The restored source mesh (an external collaborator populated by restore)
  is a structure of cell-indexed fields; the point-interpolation primitive
  is likewise an abstract parameter.
* CLI tokens carry their atof and atoi readings: a token with no numeric
  prefix is read as 0 by both, as the C library functions specify.
* The sample buffer is a function updated write by write, so that the
  in-bounds and never-touched-slot facts are provable about the actual
  index arithmetic of the source.
-/

namespace GetData

/-- A command-line token together with the values the C library conversion
functions read from it. The numeric constructor carries the atof reading and
the atoi reading; the other constructor is a token with no numeric prefix,
which atof and atoi both convert to zero. -/
inductive Token where
  | numeric (d : ℚ) (n : ℤ)
  | other
deriving DecidableEq

/-- The atof reading of a token: its double value, or 0 when no conversion
can be performed. -/
def atof : Token → ℚ
  | .numeric d _ => d
  | .other => 0

/-- The atoi reading of a token: its integer value, or 0 when no conversion
can be performed. -/
def atoi : Token → ℤ
  | .numeric _ n => n
  | .other => 0

/-- Mirror of the extraction_config struct. The derived members Deltax,
Deltay and nx are uninitialized in C until configure_grid runs; the model
defaults them to 0 and no claim reads them before configure_grid sets them. -/
structure extraction_config where
  filename : Token
  xmin : ℚ
  ymin : ℚ
  xmax : ℚ
  ymax : ℚ
  Deltax : ℚ := 0
  Deltay : ℚ := 0
  nx : ℤ := 0
  ny : ℤ
deriving DecidableEq

/-- One diagnostic message printed to stderr before a failing return.
Each constructor stands for the corresponding fprintf in the source. -/
inductive Diag where
  | argCountMsg
  | nyMsg
  | boundsMsg
  | nxMsg
deriving DecidableEq

/-- Mirror of parse_arguments: exactly seven argv entries (program name plus
six positional values), ny from atoi must be positive, and the atof bounds
must satisfy xmax greater than xmin and ymax greater than ymin. On failure the
C function prints a message and returns 0, making main return 1. -/
def parse_arguments (argv : List Token) : Except Diag extraction_config :=
  match argv with
  | [_, a1, a2, a3, a4, a5, a6] =>
    let cfg : extraction_config :=
      { filename := a1, xmin := atof a2, ymin := atof a3,
        xmax := atof a4, ymax := atof a5, ny := atoi a6 }
    if cfg.ny ≤ 0 then .error .nyMsg
    else if cfg.xmax ≤ cfg.xmin ∨ cfg.ymax ≤ cfg.ymin then .error .boundsMsg
    else .ok cfg
  | _ => .error .argCountMsg

/-- The C cast (int) applied to a double: truncation toward zero. -/
def truncInt (q : ℚ) : ℤ := if 0 ≤ q then ⌊q⌋ else ⌈q⌉

/-- Mirror of configure_grid: Deltay is the y-span over ny, nx is the
truncated quotient of the x-span by Deltay, and on success Deltax is the
x-span over nx. When nx is not positive the C function prints a message and
returns 0, making main return 1. -/
def configure_grid (cfg : extraction_config) : Except Diag extraction_config :=
  let Dy := (cfg.ymax - cfg.ymin) / (cfg.ny : ℚ)
  let nxv := truncInt ((cfg.xmax - cfg.xmin) / Dy)
  let Dx := (cfg.xmax - cfg.xmin) / (nxv : ℚ)
  if nxv ≤ 0 then .error .nxMsg
  else .ok { cfg with Deltay := Dy, nx := nxv, Deltax := Dx }

/-- The restored source mesh: cell-indexed volume fraction, the two velocity
components, the cell-centre y coordinate, and the local cell size Delta.
It is produced by the external restore operation. -/
structure SourceMesh where
  fFrac : ℤ → ℤ → ℚ
  ux : ℤ → ℤ → ℚ
  uy : ℤ → ℤ → ℚ
  yc : ℤ → ℤ → ℚ
  delta : ℤ → ℤ → ℚ

/-- The sq macro of the source. -/
def sq (a : ℚ) : ℚ := a * a

/-- Axis guard epsilon of the strain-rate kernel, 1e-10 in the source. -/
def axisEps : ℚ := 1 / 10 ^ 10

/-- D11 as in compute_D2c_field: central difference of u.y along y over
twice the local Delta. -/
def D11 (m : SourceMesh) (i j : ℤ) : ℚ :=
  (m.uy i (j + 1) - m.uy i (j - 1)) / (2 * m.delta i j)

/-- D22 as in compute_D2c_field under AXI: u.y over y when y exceeds the
epsilon guard, else 0. -/
def D22 (m : SourceMesh) (i j : ℤ) : ℚ :=
  if m.yc i j > axisEps then m.uy i j / m.yc i j else 0

/-- D33 as in compute_D2c_field: central difference of u.x along x over
twice the local Delta. -/
def D33 (m : SourceMesh) (i j : ℤ) : ℚ :=
  (m.ux (i + 1) j - m.ux (i - 1) j) / (2 * m.delta i j)

/-- D13 as in compute_D2c_field: half of the summed cross differences over
twice the local Delta. -/
def D13 (m : SourceMesh) (i j : ℤ) : ℚ :=
  (1 / 2) * ((m.uy (i + 1) j - m.uy (i - 1) j
              + m.ux i (j + 1) - m.ux i (j - 1)) / (2 * m.delta i j))

/-- Second invariant as in compute_D2c_field: with the D22 term under AXI,
without it in the planar build. -/
def D2 (axi : Bool) (m : SourceMesh) (i j : ℤ) : ℚ :=
  if axi then
    sq (D11 m i j) + sq (D22 m i j) + sq (D33 m i j) + 2 * sq (D13 m i j)
  else
    sq (D11 m i j) + sq (D33 m i j) + 2 * sq (D13 m i j)

/-- Viscosity blend of compute_D2c_field: f plus one minus f times 2e-2. -/
def mu_r (m : SourceMesh) (i j : ℤ) : ℚ :=
  m.fFrac i j + (1 - m.fFrac i j) * (2 / 100)

/-- Base-10 logarithm as the source computes it: log of the value over
log of 10, for an abstract math-library log. -/
def log10 (logFn : ℚ → ℚ) (v : ℚ) : ℚ := logFn v / logFn 10

/-- Value stored by compute_D2c_field in one cell: mu_r times D2, replaced
by its base-10 logarithm when positive and by the floor sentinel -10
otherwise. -/
def D2c_at (logFn : ℚ → ℚ) (axi : Bool) (m : SourceMesh) (i j : ℤ) : ℚ :=
  let v := mu_r m i j * D2 axi m i j
  if v > 0 then log10 logFn v else -10

/-- Value stored by compute_velocity_field in one cell: the square root of
the sum of squared velocity components, for an abstract math-library sqrt.
The source has no geometry conditional here. -/
def vel_at (sqrtFn : ℚ → ℚ) (m : SourceMesh) (i j : ℤ) : ℚ :=
  sqrtFn (sq (m.ux i j) + sq (m.uy i j))

/-- Names of the two registered fields. -/
inductive FieldName where
  | D2c
  | vel
deriving DecidableEq

/-- Mirror of register_fields: list_add appends, so D2c is registered first
and vel second; this order fixes the output column order. -/
def register_fields : List FieldName := [.D2c, .vel]

/-- Mirror of compute_fields dispatch: the kernel attached to each
registered name. -/
def computeField (sqrtFn logFn : ℚ → ℚ) (axi : Bool) (m : SourceMesh) :
    FieldName → ℤ → ℤ → ℚ
  | .D2c => D2c_at logFn axi m
  | .vel => vel_at sqrtFn m

/-- The registered fields as computed cell functions, in registration
order. -/
def fieldFns (sqrtFn logFn : ℚ → ℚ) (axi : Bool) (m : SourceMesh) :
    List (ℤ → ℤ → ℚ) :=
  register_fields.map (computeField sqrtFn logFn axi m)

/-- The external point-interpolation primitive: given a cell field and a
coordinate pair it returns the interpolated value. -/
def Interp : Type := (ℤ → ℤ → ℚ) → ℚ → ℚ → ℚ

/-- Output abscissa of column i as in sample_fields and write_fields. -/
def xCoord (cfg : extraction_config) (i : ℕ) : ℚ :=
  cfg.Deltax * ((i : ℚ) + 1 / 2) + cfg.xmin

/-- Output ordinate of row j as in sample_fields and write_fields. -/
def yCoord (cfg : extraction_config) (j : ℕ) : ℚ :=
  cfg.Deltay * ((j : ℚ) + 1 / 2) + cfg.ymin

/-- The per-slot writes performed by the two inner loops of sample_fields
for output column i: for each j below ny and each field index k below the
field count, slot fieldCount times j plus k receives the interpolated
value of field k at the cell centre. -/
def rowWrites (cfg : extraction_config) (fields : List (ℤ → ℤ → ℚ))
    (intp : Interp) (i : ℕ) : List (ℕ × ℚ) :=
  (List.range cfg.ny.toNat).flatMap fun j =>
    (List.range fields.length).map fun k =>
      (fields.length * j + k,
       intp (fields.getD k (fun _ _ => 0)) (xCoord cfg i) (yCoord cfg j))

/-- Replay a list of slot writes over an initial row content. -/
def applyWrites (init : ℕ → ℚ) (ws : List (ℕ × ℚ)) : ℕ → ℚ :=
  ws.foldl (fun b w => Function.update b w.1 w.2) init

/-- Mirror of sample_fields: the buffer row for column i after the loops,
starting from the arbitrary content init the allocation provided. -/
def sample_fields (cfg : extraction_config) (fields : List (ℤ → ℤ → ℚ))
    (intp : Interp) (init : ℕ → ℕ → ℚ) : ℕ → ℕ → ℚ :=
  fun i => applyWrites (init i) (rowWrites cfg fields intp i)

/-- Slots per buffer row as allocated by allocate_field_buffer, which calls
matrix_new with ny plus one entries of fieldCount doubles each. -/
def allocSlots (cfg : extraction_config) (fieldCount : ℕ) : ℕ :=
  fieldCount * (cfg.ny.toNat + 1)

/-- One output row: the two coordinates followed by the field columns. -/
structure Row where
  x : ℚ
  y : ℚ
  vals : List ℚ
deriving DecidableEq

/-- Mirror of write_fields: for i below nx and j below ny, in i-outer
j-inner order, emit the coordinates and the buffer entries at slots
fieldCount times j plus k for k below fieldCount. -/
def write_fields (cfg : extraction_config) (fieldCount : ℕ)
    (buf : ℕ → ℕ → ℚ) : List Row :=
  (List.range cfg.nx.toNat).flatMap fun i =>
    (List.range cfg.ny.toNat).map fun j =>
      { x := xCoord cfg i, y := yCoord cfg j,
        vals := (List.range fieldCount).map fun k =>
          buf i (fieldCount * j + k) }

/-- Observable outcome of one process run: the exit status, the data rows
written to the output stream, and the diagnostics printed on failure. -/
structure RunOutput where
  exitCode : ℤ
  rows : List Row
  diag : List Diag
deriving DecidableEq

/-- Mirror of main: parse, plan the grid, then (with the mesh the external
restore produced) compute the registered fields, sample them into the
buffer and write the rows. A failing step returns exit status 1 with its
diagnostic and no rows. -/
def main_run (sqrtFn logFn : ℚ → ℚ) (axi : Bool) (m : SourceMesh)
    (intp : Interp) (argv : List Token) : RunOutput :=
  match parse_arguments argv with
  | .error e => ⟨1, [], [e]⟩
  | .ok cfg =>
    match configure_grid cfg with
    | .error e => ⟨1, [], [e]⟩
    | .ok cfg2 =>
      let fields := fieldFns sqrtFn logFn axi m
      let buf := sample_fields cfg2 fields intp (fun _ _ => 0)
      ⟨0, write_fields cfg2 fields.length buf, []⟩

/-- The pipeline stages in the order main invokes them. -/
inductive Step where
  | validateArgs
  | planGrid
  | restoreSnapshot
  | registerFields
  | computeFields
  | allocateBuffer
  | sampleGrid
  | writeRows
  | cleanup
deriving DecidableEq

/-- The sequence of stages main executes for a given argv: parsing always
runs; grid planning runs when parsing succeeded; on success the source then
calls register_fields, restore, compute_fields, the buffer allocation, the
sampler, the writer and the cleanup, in that textual order. -/
def main_trace (argv : List Token) : List Step :=
  match parse_arguments argv with
  | .error _ => [.validateArgs]
  | .ok cfg =>
    match configure_grid cfg with
    | .error _ => [.validateArgs, .planGrid]
    | .ok _ =>
      [.validateArgs, .planGrid, .registerFields, .restoreSnapshot,
       .computeFields, .allocateBuffer, .sampleGrid, .writeRows, .cleanup]

/-! Helper lemmas about the write replay, the slot arithmetic and the
sampler-to-writer handoff. -/

lemma applyWrites_cons (init : ℕ → ℚ) (w : ℕ × ℚ) (ws : List (ℕ × ℚ)) :
    applyWrites init (w :: ws) = applyWrites (Function.update init w.1 w.2) ws := rfl

lemma applyWrites_of_forall_ne :
    ∀ (ws : List (ℕ × ℚ)) (init : ℕ → ℚ) (idx : ℕ),
      (∀ p ∈ ws, p.1 ≠ idx) → applyWrites init ws idx = init idx := by
  intro ws
  induction ws with
  | nil => intro init idx _; rfl
  | cons a tl ih =>
    intro init idx h
    rw [applyWrites_cons, ih _ idx fun p hp => h p (List.mem_cons_of_mem a hp)]
    exact Function.update_noteq (Ne.symm (h a (List.mem_cons_self a tl))) a.2 init

lemma applyWrites_eq_of_mem :
    ∀ (ws : List (ℕ × ℚ)) (init : ℕ → ℚ) (idx : ℕ) (v : ℚ),
      (idx, v) ∈ ws → (∀ p ∈ ws, p.1 = idx → p.2 = v) →
      applyWrites init ws idx = v := by
  intro ws
  induction ws with
  | nil => intro init idx v hmem _; simp at hmem
  | cons a tl ih =>
    intro init idx v hmem huniq
    rw [applyWrites_cons]
    by_cases htl : ∃ p ∈ tl, p.1 = idx
    · obtain ⟨p, hp, hpi⟩ := htl
      have hp2 : p.2 = v := huniq p (List.mem_cons_of_mem a hp) hpi
      have hpv : p = (idx, v) := Prod.ext hpi hp2
      exact ih _ idx v (hpv ▸ hp) fun q hq hqi =>
        huniq q (List.mem_cons_of_mem a hq) hqi
    · push_neg at htl
      rw [applyWrites_of_forall_ne tl _ idx htl]
      rcases List.mem_cons.mp hmem with h | h
      · have h1 : a.1 = idx := by rw [← h]
        have h2 : a.2 = v := by rw [← h]
        rw [h1, h2, Function.update_same]
      · exact absurd rfl (htl (idx, v) h)

lemma slot_lt {F j k ny : ℕ} (hj : j < ny) (hk : k < F) : F * j + k < F * ny := by
  calc F * j + k < F * j + F := Nat.add_lt_add_left hk _
    _ = F * (j + 1) := by ring
    _ ≤ F * ny := Nat.mul_le_mul_left F hj

lemma slot_inj {F j k j2 k2 : ℕ} (hk : k < F) (hk2 : k2 < F)
    (h : F * j2 + k2 = F * j + k) : j2 = j ∧ k2 = k := by
  have hF : 0 < F := lt_of_le_of_lt (Nat.zero_le k) hk
  constructor
  · have hdiv := congrArg (· / F) h
    simpa [Nat.mul_add_div hF, Nat.div_eq_of_lt hk, Nat.div_eq_of_lt hk2]
      using hdiv
  · have hmod := congrArg (· % F) h
    simpa [Nat.mul_add_mod, Nat.mod_eq_of_lt hk, Nat.mod_eq_of_lt hk2]
      using hmod

lemma rowWrites_mem (cfg : extraction_config) (fields : List (ℤ → ℤ → ℚ))
    (intp : Interp) (i j k : ℕ) (hj : j < cfg.ny.toNat) (hk : k < fields.length) :
    (fields.length * j + k,
      intp (fields.getD k (fun _ _ => 0)) (xCoord cfg i) (yCoord cfg j))
      ∈ rowWrites cfg fields intp i := by
  unfold rowWrites
  refine List.mem_flatMap.mpr ⟨j, List.mem_range.mpr hj, ?_⟩
  exact List.mem_map.mpr ⟨k, List.mem_range.mpr hk, rfl⟩

lemma rowWrites_shape (cfg : extraction_config) (fields : List (ℤ → ℤ → ℚ))
    (intp : Interp) (i : ℕ) (p : ℕ × ℚ) (hp : p ∈ rowWrites cfg fields intp i) :
    ∃ j k, j < cfg.ny.toNat ∧ k < fields.length ∧
      p = (fields.length * j + k,
           intp (fields.getD k (fun _ _ => 0)) (xCoord cfg i) (yCoord cfg j)) := by
  unfold rowWrites at hp
  obtain ⟨j, hj, hpin⟩ := List.mem_flatMap.mp hp
  obtain ⟨k, hk, rfl⟩ := List.mem_map.mp hpin
  exact ⟨j, k, List.mem_range.mp hj, List.mem_range.mp hk, rfl⟩

lemma sample_fields_read (cfg : extraction_config) (fields : List (ℤ → ℤ → ℚ))
    (intp : Interp) (init : ℕ → ℕ → ℚ) (i j k : ℕ)
    (hj : j < cfg.ny.toNat) (hk : k < fields.length) :
    sample_fields cfg fields intp init i (fields.length * j + k)
      = intp (fields.getD k (fun _ _ => 0)) (xCoord cfg i) (yCoord cfg j) := by
  unfold sample_fields
  apply applyWrites_eq_of_mem
  · exact rowWrites_mem cfg fields intp i j k hj hk
  · intro p hp hpi
    obtain ⟨j2, k2, hj2, hk2, rfl⟩ := rowWrites_shape cfg fields intp i p hp
    obtain ⟨rfl, rfl⟩ := slot_inj hk hk2 hpi
    rfl

lemma sample_fields_untouched (cfg : extraction_config)
    (fields : List (ℤ → ℤ → ℚ)) (intp : Interp) (init : ℕ → ℕ → ℚ)
    (i idx : ℕ) (hidx : fields.length * cfg.ny.toNat ≤ idx) :
    sample_fields cfg fields intp init i idx = init i idx := by
  unfold sample_fields
  apply applyWrites_of_forall_ne
  intro p hp
  obtain ⟨j, k, hj, hk, rfl⟩ := rowWrites_shape cfg fields intp i p hp
  have := slot_lt hj hk
  omega

lemma map_getD_range {α β : Type} (l : List α) (g : α → β) (d : α) :
    (List.range l.length).map (fun k => g (l.getD k d)) = l.map g := by
  apply List.ext_getElem (by simp)
  intro n h1 h2
  have hn : n < l.length := by simpa using h2
  simp [List.getElem_map, List.getElem_range, List.getD_eq_getElem?_getD,
        List.getElem?_eq_getElem hn]

lemma sample_row_vals (cfg : extraction_config) (fields : List (ℤ → ℤ → ℚ))
    (intp : Interp) (init : ℕ → ℕ → ℚ) (i j : ℕ) (hj : j < cfg.ny.toNat) :
    (List.range fields.length).map
        (fun k => sample_fields cfg fields intp init i (fields.length * j + k))
      = fields.map fun s => intp s (xCoord cfg i) (yCoord cfg j) := by
  rw [← map_getD_range fields
    (fun s => intp s (xCoord cfg i) (yCoord cfg j)) (fun _ _ => 0)]
  apply List.map_congr_left
  intro k hk
  exact sample_fields_read cfg fields intp init i j k hj
    (List.mem_range.mp hk)

lemma write_fields_sample (cfg : extraction_config)
    (fields : List (ℤ → ℤ → ℚ)) (intp : Interp) (init : ℕ → ℕ → ℚ) :
    write_fields cfg fields.length (sample_fields cfg fields intp init) =
      (List.range cfg.nx.toNat).flatMap fun i =>
        (List.range cfg.ny.toNat).map fun j =>
          { x := xCoord cfg i, y := yCoord cfg j,
            vals := fields.map fun s => intp s (xCoord cfg i) (yCoord cfg j) } := by
  unfold write_fields
  refine congrArg (fun f => (List.range cfg.nx.toNat).flatMap f)
    (funext fun i => ?_)
  apply List.map_congr_left
  intro j hj
  have hjn : j < cfg.ny.toNat := List.mem_range.mp hj
  rw [sample_row_vals cfg fields intp init i j hjn]

lemma map_grid {α β : Type} (n mm : ℕ) (g g2 : ℕ → ℕ → α) (f : α → β)
    (h : ∀ i j, f (g i j) = f (g2 i j)) :
    ((List.range n).flatMap fun i => (List.range mm).map (g i)).map f
      = ((List.range n).flatMap fun i => (List.range mm).map (g2 i)).map f := by
  rw [List.map_flatMap, List.map_flatMap]
  refine congrArg (fun F => (List.range n).flatMap F) (funext fun i => ?_)
  rw [List.map_map, List.map_map]
  exact List.map_congr_left fun j _ => h i j

lemma main_run_ok (sqrtFn logFn : ℚ → ℚ) (axi : Bool) (m : SourceMesh)
    (intp : Interp) (argv : List Token) (cfg cfg2 : extraction_config)
    (hp : parse_arguments argv = .ok cfg)
    (hc : configure_grid cfg = .ok cfg2) :
    main_run sqrtFn logFn axi m intp argv =
      ⟨0, (List.range cfg2.nx.toNat).flatMap fun i =>
            (List.range cfg2.ny.toNat).map fun j =>
              { x := xCoord cfg2 i, y := yCoord cfg2 j,
                vals := (fieldFns sqrtFn logFn axi m).map fun s =>
                  intp s (xCoord cfg2 i) (yCoord cfg2 j) }, []⟩ := by
  simp only [main_run, hp, hc]
  rw [write_fields_sample]

lemma length_grid {α : Type} (n mm : ℕ) (g : ℕ → ℕ → α) :
    ((List.range n).flatMap fun i => (List.range mm).map (g i)).length
      = n * mm := by
  induction n with
  | zero => simp
  | succ n ih =>
    rw [List.range_succ, List.flatMap_append, List.length_append, ih]
    simp [Nat.succ_mul]

lemma getElem_grid {α : Type} (mm : ℕ) :
    ∀ (g : ℕ → ℕ → α) (n i j : ℕ), i < n → j < mm →
      ((List.range n).flatMap fun a => (List.range mm).map (g a))[i * mm + j]?
        = some (g i j) := by
  intro g n i
  induction i generalizing g n with
  | zero =>
    intro j hi hj
    obtain ⟨n1, rfl⟩ : ∃ n1, n = n1 + 1 := ⟨n - 1, by omega⟩
    rw [List.range_succ_eq_map, List.flatMap_cons]
    simp [List.getElem?_append, List.length_map, List.length_range, hj,
          List.getElem?_map, List.getElem?_range]
  | succ i ih =>
    intro j hi hj
    obtain ⟨n1, rfl⟩ : ∃ n1, n = n1 + 1 := ⟨n - 1, by omega⟩
    rw [List.range_succ_eq_map, List.flatMap_cons]
    have hidx : (i + 1) * mm + j = mm + (i * mm + j) := by ring
    rw [hidx, List.getElem?_append]
    have hlen : ((List.range mm).map (g 0)).length = mm := by simp
    rw [hlen]
    have hnot : ¬ mm + (i * mm + j) < mm := by omega
    rw [if_neg hnot]
    have harith : mm + (i * mm + j) - mm = i * mm + j := by omega
    rw [harith]
    have hmapflat : ((List.range n1).map Nat.succ).flatMap
          (fun a => (List.range mm).map (g a))
        = (List.range n1).flatMap fun a => (List.range mm).map (g (a + 1)) := by
      rw [List.flatMap_map]
    rw [hmapflat]
    exact ih (fun a b => g (a + 1) b) n1 j (by omega) hj

/-! Concrete inputs used by the witnesses and counterexamples. -/

/-- Identity stand-in for the abstract math-library functions. -/
def idFn : ℚ → ℚ := fun q => q

/-- A mesh whose fields are identically zero. -/
def zeroMesh : SourceMesh :=
  ⟨fun _ _ => 0, fun _ _ => 0, fun _ _ => 0, fun _ _ => 0, fun _ _ => 0⟩

/-- An interpolation primitive that reads the field at the origin cell. -/
def originIntp : Interp := fun s _ _ => s 0 0

/-- A seven-token argv: program name, filename, bounds 0 0 1 2 and ny 4.
This is the worked example of the specification. -/
def argvGood : List Token :=
  [.other, .other, .numeric 0 0, .numeric 0 0, .numeric 1 1,
   .numeric 2 2, .numeric 4 4]

/-- The configuration parse_arguments builds from argvGood. -/
def cfgGood : extraction_config :=
  { filename := .other, xmin := 0, ymin := 0, xmax := 1, ymax := 2, ny := 4 }

/-- The configuration configure_grid derives from cfgGood: Deltay one half,
nx 2, Deltax one half. -/
def cfgGood2 : extraction_config :=
  { filename := .other, xmin := 0, ymin := 0, xmax := 1, ymax := 2,
    Deltax := 1 / 2, Deltay := 1 / 2, nx := 2, ny := 4 }

lemma parse_good : parse_arguments argvGood = .ok cfgGood := rfl

lemma grid_good : configure_grid cfgGood = .ok cfgGood2 := by
  unfold configure_grid truncInt cfgGood cfgGood2
  norm_num

/-! Claim-side formulations, written from the words of the specification, to
be compared with the definitions taken from the source. -/

/-- Grid spacing in y as the claims state it: the y-span over ny, exactly. -/
def specDeltay (cfg : extraction_config) : ℚ :=
  (cfg.ymax - cfg.ymin) / (cfg.ny : ℚ)

/-- Derived column count as the claims state it: the floor of the x-span
over the y spacing. -/
def specNxFloor (cfg : extraction_config) : ℤ :=
  ⌊(cfg.xmax - cfg.xmin) / specDeltay cfg⌋

/-- Grid spacing in x as the claims state it: the x-span over the derived
column count, exactly. -/
def specDeltax (cfg : extraction_config) : ℚ :=
  (cfg.xmax - cfg.xmin) / (specNxFloor cfg : ℚ)

/-- Second strain invariant as the claims state it: squared D11, D33 and
twice squared D13, with the squared azimuthal term added only in
axisymmetric mode; the three tensor components written as the claimed
2-Delta central differences, D13 as half the sum of the two cross central
differences. -/
def specD2 (axi : Bool) (m : SourceMesh) (i j : ℤ) : ℚ :=
  ((m.uy i (j + 1) - m.uy i (j - 1)) / (2 * m.delta i j)) ^ 2
    + ((m.ux (i + 1) j - m.ux (i - 1) j) / (2 * m.delta i j)) ^ 2
    + 2 * ((1 / 2) * ((m.uy (i + 1) j - m.uy (i - 1) j) / (2 * m.delta i j)
        + (m.ux i (j + 1) - m.ux i (j - 1)) / (2 * m.delta i j))) ^ 2
    + (if axi then (D22 m i j) ^ 2 else 0)

lemma D2_eq_specD2 (axi : Bool) (m : SourceMesh) (i j : ℤ) :
    D2 axi m i j = specD2 axi m i j := by
  cases axi <;> simp [D2, specD2, sq, D11, D33, D13] <;> ring

/-- C1: for every input with xmax above xmin, ymax above ymin and positive
ny, grid planning sets Deltay to the y-span over ny exactly and nx to the
floor of the x-span over Deltay; when that floor is not positive the run
fails with exit status 1 and no output rows, and otherwise Deltax is the
x-span over nx exactly, so Deltax times nx reproduces the x-span. -/
theorem claim1_grid_plan (cfg : extraction_config)
    (hx : cfg.xmin < cfg.xmax) (hy : cfg.ymin < cfg.ymax) (hny : 0 < cfg.ny) :
    (specNxFloor cfg ≤ 0 →
      configure_grid cfg = .error .nxMsg ∧
      ∀ (sqrtFn logFn : ℚ → ℚ) (axi : Bool) (m : SourceMesh) (intp : Interp)
        (argv : List Token),
        parse_arguments argv = .ok cfg →
        main_run sqrtFn logFn axi m intp argv = ⟨1, [], [.nxMsg]⟩) ∧
    (0 < specNxFloor cfg →
      configure_grid cfg = .ok
        { cfg with Deltay := specDeltay cfg, nx := specNxFloor cfg,
                   Deltax := specDeltax cfg } ∧
      specDeltax cfg * (specNxFloor cfg : ℚ) = cfg.xmax - cfg.xmin) := by
  have hq : 0 < (cfg.xmax - cfg.xmin) / specDeltay cfg := by
    apply div_pos (by linarith)
    apply div_pos (by linarith)
    exact_mod_cast hny
  have htr : truncInt ((cfg.xmax - cfg.xmin) / specDeltay cfg)
      = specNxFloor cfg := if_pos hq.le
  constructor
  · intro hle
    have hcg : configure_grid cfg = .error .nxMsg := by
      simp only [configure_grid]
      rw [show (cfg.ymax - cfg.ymin) / (cfg.ny : ℚ) = specDeltay cfg from rfl,
          htr, if_pos hle]
    refine ⟨hcg, ?_⟩
    intro sqrtFn logFn axi m intp argv hp
    simp only [main_run, hp, hcg]
  · intro hpos
    have hne : ((specNxFloor cfg : ℤ) : ℚ) ≠ 0 := by
      exact_mod_cast ne_of_gt hpos
    constructor
    · simp only [configure_grid]
      rw [show (cfg.ymax - cfg.ymin) / (cfg.ny : ℚ) = specDeltay cfg from rfl,
          htr, if_neg (not_le.mpr hpos)]
      rfl
    · exact div_mul_cancel₀ _ hne

/-- C1 witness: the claim instantiated at the specification example, bounds
0 0 1 2 with ny 4. -/
theorem claim1_grid_plan_witness :
    (specNxFloor cfgGood ≤ 0 →
      configure_grid cfgGood = .error .nxMsg ∧
      ∀ (sqrtFn logFn : ℚ → ℚ) (axi : Bool) (m : SourceMesh) (intp : Interp)
        (argv : List Token),
        parse_arguments argv = .ok cfgGood →
        main_run sqrtFn logFn axi m intp argv = ⟨1, [], [.nxMsg]⟩) ∧
    (0 < specNxFloor cfgGood →
      configure_grid cfgGood = .ok
        { cfgGood with Deltay := specDeltay cfgGood, nx := specNxFloor cfgGood,
                       Deltax := specDeltax cfgGood } ∧
      specDeltax cfgGood * (specNxFloor cfgGood : ℚ)
        = cfgGood.xmax - cfgGood.xmin) :=
  claim1_grid_plan cfgGood (by decide) (by decide) (by decide)

/-- C2: in every cell the strain-rate kernel stores the base-10 logarithm
of mu_r times D2 when that product is positive and the floor sentinel -10
otherwise, never an undefined value, with mu_r the volume-fraction blend
and D2 the claimed sum of squared 2-Delta central differences, the squared
azimuthal term appearing only in axisymmetric mode. -/
theorem claim2_strain_kernel (logFn : ℚ → ℚ) (axi : Bool) (m : SourceMesh)
    (i j : ℤ) :
    (0 < mu_r m i j * specD2 axi m i j →
      D2c_at logFn axi m i j = log10 logFn (mu_r m i j * specD2 axi m i j)) ∧
    (mu_r m i j * specD2 axi m i j ≤ 0 →
      D2c_at logFn axi m i j = -10) := by
  have hD2 : D2 axi m i j = specD2 axi m i j := D2_eq_specD2 axi m i j
  constructor
  · intro h
    simp only [D2c_at]
    rw [hD2, if_pos h]
  · intro h
    simp only [D2c_at]
    rw [hD2, if_neg (not_lt.mpr h)]

/-- C2 witness: on the all-zero mesh the product is zero, so the kernel
stores the sentinel. -/
theorem claim2_strain_kernel_witness :
    (0 < mu_r zeroMesh 0 0 * specD2 true zeroMesh 0 0 →
      D2c_at idFn true zeroMesh 0 0
        = log10 idFn (mu_r zeroMesh 0 0 * specD2 true zeroMesh 0 0)) ∧
    (mu_r zeroMesh 0 0 * specD2 true zeroMesh 0 0 ≤ 0 →
      D2c_at idFn true zeroMesh 0 0 = -10) :=
  claim2_strain_kernel idFn true zeroMesh 0 0

/-- C6: in every cell the velocity kernel stores the square root of the sum
of the squared velocity components; the kernel is the same function under
both geometry policies, its argument is nonnegative, and the stored value
is nonnegative whenever the square root maps nonnegatives to
nonnegatives. -/
theorem claim6_velocity_kernel (sqrtFn logFn : ℚ → ℚ) (m : SourceMesh)
    (i j : ℤ) :
    vel_at sqrtFn m i j = sqrtFn (m.ux i j ^ 2 + m.uy i j ^ 2) ∧
    (∀ axi axi2 : Bool,
      computeField sqrtFn logFn axi m .vel
        = computeField sqrtFn logFn axi2 m .vel) ∧
    0 ≤ m.ux i j ^ 2 + m.uy i j ^ 2 ∧
    ((∀ q, 0 ≤ q → 0 ≤ sqrtFn q) → 0 ≤ vel_at sqrtFn m i j) := by
  refine ⟨?_, fun _ _ => rfl, by positivity, ?_⟩
  · unfold vel_at sq
    congr 1
    ring
  · intro h
    unfold vel_at
    exact h _ (add_nonneg (mul_self_nonneg _) (mul_self_nonneg _))

/-- C6 witness: instantiated at the identity square root, which preserves
nonnegativity, on the all-zero mesh. -/
theorem claim6_velocity_kernel_witness :
    vel_at idFn zeroMesh 0 0
      = idFn (zeroMesh.ux 0 0 ^ 2 + zeroMesh.uy 0 0 ^ 2) ∧
    (∀ axi axi2 : Bool,
      computeField idFn idFn axi zeroMesh .vel
        = computeField idFn idFn axi2 zeroMesh .vel) ∧
    0 ≤ zeroMesh.ux 0 0 ^ 2 + zeroMesh.uy 0 0 ^ 2 ∧
    ((∀ q, 0 ≤ q → 0 ≤ idFn q) → 0 ≤ vel_at idFn zeroMesh 0 0) :=
  claim6_velocity_kernel idFn idFn zeroMesh 0 0

/-- C7: the azimuthal term divides by y only behind the epsilon guard: at or
below the epsilon it is zero, above it the divisor is provably nonzero; in
planar mode the invariant has no azimuthal term and is independent of the
cell y coordinate entirely. -/
theorem claim7_axis_guard (m : SourceMesh) (i j : ℤ) :
    (m.yc i j ≤ axisEps → D22 m i j = 0) ∧
    (axisEps < m.yc i j →
      D22 m i j = m.uy i j / m.yc i j ∧ m.yc i j ≠ 0) ∧
    D2 false m i j = sq (D11 m i j) + sq (D33 m i j) + 2 * sq (D13 m i j) ∧
    (∀ m2 : SourceMesh, m2.ux = m.ux → m2.uy = m.uy → m2.delta = m.delta →
      D2 false m2 i j = D2 false m i j) := by
  have heps : (0 : ℚ) < axisEps := by norm_num [axisEps]
  refine ⟨?_, ?_, rfl, ?_⟩
  · intro h
    unfold D22
    rw [if_neg (not_lt.mpr h)]
  · intro h
    refine ⟨?_, ne_of_gt (lt_trans heps h)⟩
    unfold D22
    rw [if_pos h]
  · intro m2 h1 h2 h3
    simp [D2, D11, D33, D13, h1, h2, h3]

/-- C7 witness: on the all-zero mesh the y coordinate is at the axis, so
the azimuthal term is zero without dividing. -/
theorem claim7_axis_guard_witness :
    (zeroMesh.yc 0 0 ≤ axisEps → D22 zeroMesh 0 0 = 0) ∧
    (axisEps < zeroMesh.yc 0 0 →
      D22 zeroMesh 0 0 = zeroMesh.uy 0 0 / zeroMesh.yc 0 0 ∧
      zeroMesh.yc 0 0 ≠ 0) ∧
    D2 false zeroMesh 0 0
      = sq (D11 zeroMesh 0 0) + sq (D33 zeroMesh 0 0)
        + 2 * sq (D13 zeroMesh 0 0) ∧
    (∀ m2 : SourceMesh, m2.ux = zeroMesh.ux → m2.uy = zeroMesh.uy →
      m2.delta = zeroMesh.delta → D2 false m2 0 0 = D2 false zeroMesh 0 0) :=
  claim7_axis_guard zeroMesh 0 0

/-- C4: argument validation succeeds only on exactly six positional values
whose atoi reading of ny is strictly positive and whose atof bound readings
are correctly ordered; on any violation the run prints a diagnostic,
exits with status 1 and writes no rows. -/
theorem claim4_arg_validation (argv : List Token) (sqrtFn logFn : ℚ → ℚ)
    (axi : Bool) (m : SourceMesh) (intp : Interp) :
    (∀ cfg, parse_arguments argv = .ok cfg →
      ∃ t0 t1 t2 t3 t4 t5 t6, argv = [t0, t1, t2, t3, t4, t5, t6] ∧
        cfg.ny = atoi t6 ∧ 0 < cfg.ny ∧
        cfg.xmin = atof t2 ∧ cfg.ymin = atof t3 ∧
        cfg.xmax = atof t4 ∧ cfg.ymax = atof t5 ∧
        cfg.xmin < cfg.xmax ∧ cfg.ymin < cfg.ymax) ∧
    (∀ e, parse_arguments argv = .error e →
      main_run sqrtFn logFn axi m intp argv = ⟨1, [], [e]⟩) := by
  constructor
  · intro cfg h
    match argv with
    | [] => simp [parse_arguments] at h
    | [t0] => simp [parse_arguments] at h
    | [t0, t1] => simp [parse_arguments] at h
    | [t0, t1, t2] => simp [parse_arguments] at h
    | [t0, t1, t2, t3] => simp [parse_arguments] at h
    | [t0, t1, t2, t3, t4] => simp [parse_arguments] at h
    | [t0, t1, t2, t3, t4, t5] => simp [parse_arguments] at h
    | t0 :: t1 :: t2 :: t3 :: t4 :: t5 :: t6 :: t7 :: rest =>
      simp [parse_arguments] at h
    | [t0, t1, t2, t3, t4, t5, t6] =>
      simp only [parse_arguments] at h
      by_cases h1 : atoi t6 ≤ 0
      · rw [if_pos h1] at h
        exact absurd h (by simp)
      · rw [if_neg h1] at h
        by_cases h2 : atof t4 ≤ atof t2 ∨ atof t5 ≤ atof t3
        · rw [if_pos h2] at h
          exact absurd h (by simp)
        · rw [if_neg h2] at h
          rw [Except.ok.injEq] at h
          subst h
          push_neg at h2
          exact ⟨t0, t1, t2, t3, t4, t5, t6, rfl, rfl, not_le.mp h1,
            rfl, rfl, rfl, rfl, h2.1, h2.2⟩
  · intro e he
    simp only [main_run, he]

/-- C4 witness: the claim instantiated at the example argv, whose parse
succeeds with the expected readings. -/
theorem claim4_arg_validation_witness :
    (∀ cfg, parse_arguments argvGood = .ok cfg →
      ∃ t0 t1 t2 t3 t4 t5 t6, argvGood = [t0, t1, t2, t3, t4, t5, t6] ∧
        cfg.ny = atoi t6 ∧ 0 < cfg.ny ∧
        cfg.xmin = atof t2 ∧ cfg.ymin = atof t3 ∧
        cfg.xmax = atof t4 ∧ cfg.ymax = atof t5 ∧
        cfg.xmin < cfg.xmax ∧ cfg.ymin < cfg.ymax) ∧
    (∀ e, parse_arguments argvGood = .error e →
      main_run idFn idFn true zeroMesh originIntp argvGood = ⟨1, [], [e]⟩) :=
  claim4_arg_validation argvGood idFn idFn true zeroMesh originIntp

/-- C9: in each buffer row every slot the sampler writes lies strictly below
fieldCount times ny, hence inside the allocation of fieldCount times ny plus
one slots; slots at or beyond fieldCount times ny keep their initial
content, and the writer output never depends on them. -/
theorem claim9_buffer_bounds (cfg : extraction_config)
    (fields : List (ℤ → ℤ → ℚ)) (intp : Interp) (i : ℕ) :
    (∀ p ∈ rowWrites cfg fields intp i,
      p.1 < fields.length * cfg.ny.toNat ∧ p.1 < allocSlots cfg fields.length) ∧
    (∀ (init : ℕ → ℕ → ℚ) (idx : ℕ), fields.length * cfg.ny.toNat ≤ idx →
      sample_fields cfg fields intp init i idx = init i idx) ∧
    (∀ (F : ℕ) (b b2 : ℕ → ℕ → ℚ),
      (∀ a idx, idx < F * cfg.ny.toNat → b a idx = b2 a idx) →
      write_fields cfg F b = write_fields cfg F b2) := by
  refine ⟨?_, ?_, ?_⟩
  · intro p hp
    obtain ⟨j, k, hj, hk, rfl⟩ := rowWrites_shape cfg fields intp i p hp
    have hlt := slot_lt hj hk
    refine ⟨hlt, lt_of_lt_of_le hlt ?_⟩
    unfold allocSlots
    exact Nat.mul_le_mul_left _ (Nat.le_succ _)
  · intro init idx hidx
    exact sample_fields_untouched cfg fields intp init i idx hidx
  · intro F b b2 hagree
    unfold write_fields
    refine congrArg (fun f => (List.range cfg.nx.toNat).flatMap f)
      (funext fun a => ?_)
    apply List.map_congr_left
    intro j hj
    have hjn : j < cfg.ny.toNat := List.mem_range.mp hj
    have hv : (List.range F).map (fun k => b a (F * j + k))
        = (List.range F).map fun k => b2 a (F * j + k) := by
      apply List.map_congr_left
      intro k hk
      exact hagree a (F * j + k) (slot_lt hjn (List.mem_range.mp hk))
    rw [hv]

/-- C9 witness: the claim instantiated at the example grid with the two
registered kernels on the all-zero mesh. -/
theorem claim9_buffer_bounds_witness :
    (∀ p ∈ rowWrites cfgGood2 (fieldFns idFn idFn true zeroMesh) originIntp 0,
      p.1 < (fieldFns idFn idFn true zeroMesh).length * cfgGood2.ny.toNat ∧
      p.1 < allocSlots cfgGood2 (fieldFns idFn idFn true zeroMesh).length) ∧
    (∀ (init : ℕ → ℕ → ℚ) (idx : ℕ),
      (fieldFns idFn idFn true zeroMesh).length * cfgGood2.ny.toNat ≤ idx →
      sample_fields cfgGood2 (fieldFns idFn idFn true zeroMesh) originIntp
        init 0 idx = init 0 idx) ∧
    (∀ (F : ℕ) (b b2 : ℕ → ℕ → ℚ),
      (∀ a idx, idx < F * cfgGood2.ny.toNat → b a idx = b2 a idx) →
      write_fields cfgGood2 F b = write_fields cfgGood2 F b2) :=
  claim9_buffer_bounds cfgGood2 (fieldFns idFn idFn true zeroMesh) originIntp 0

/-- Output rows as the claim states them: one row per grid point in i-outer
j-inner order, with x equal to Deltax times i plus one half plus xmin, y
equal to Deltay times j plus one half plus ymin, followed by one
interpolated value per registered field in registration order. -/
def specRows (cfg : extraction_config) (fields : List (ℤ → ℤ → ℚ))
    (intp : Interp) : List Row :=
  (List.range cfg.nx.toNat).flatMap fun (i : ℕ) =>
    (List.range cfg.ny.toNat).map fun (j : ℕ) =>
      { x := cfg.Deltax * ((i : ℚ) + 1 / 2) + cfg.xmin,
        y := cfg.Deltay * ((j : ℚ) + 1 / 2) + cfg.ymin,
        vals := fields.map fun s =>
          intp s (cfg.Deltax * ((i : ℚ) + 1 / 2) + cfg.xmin)
            (cfg.Deltay * ((j : ℚ) + 1 / 2) + cfg.ymin) }

/-- C3: a successful run writes exactly nx times ny rows, in i-outer
j-inner order, each row holding the cell-centre coordinates and the
interpolated value of every registered field in registration order, the
value at index i and j and k being exactly what the sample buffer holds at
row i, slot fieldCount times j plus k. -/
theorem claim3_output_rows (sqrtFn logFn : ℚ → ℚ) (axi : Bool)
    (m : SourceMesh) (intp : Interp) (argv : List Token)
    (cfg cfg2 : extraction_config)
    (hp : parse_arguments argv = .ok cfg)
    (hc : configure_grid cfg = .ok cfg2) :
    main_run sqrtFn logFn axi m intp argv
      = ⟨0, specRows cfg2 (fieldFns sqrtFn logFn axi m) intp, []⟩ ∧
    (specRows cfg2 (fieldFns sqrtFn logFn axi m) intp).length
      = cfg2.nx.toNat * cfg2.ny.toNat ∧
    (∀ i j, i < cfg2.nx.toNat → j < cfg2.ny.toNat →
      (specRows cfg2 (fieldFns sqrtFn logFn axi m) intp)[i * cfg2.ny.toNat + j]?
        = some { x := xCoord cfg2 i, y := yCoord cfg2 j,
                 vals := (List.range (fieldFns sqrtFn logFn axi m).length).map
                   fun k => sample_fields cfg2 (fieldFns sqrtFn logFn axi m)
                     intp (fun _ _ => 0) i
                     ((fieldFns sqrtFn logFn axi m).length * j + k) }) := by
  refine ⟨?_, ?_, ?_⟩
  · rw [main_run_ok sqrtFn logFn axi m intp argv cfg cfg2 hp hc]
    rfl
  · unfold specRows
    rw [length_grid]
  · intro i j hi hj
    unfold specRows
    rw [getElem_grid]
    · rw [sample_row_vals cfg2 (fieldFns sqrtFn logFn axi m) intp
        (fun _ _ => 0) i j hj]
      rfl
    · exact hi
    · exact hj

/-- C3 witness: the claim instantiated at the specification example run. -/
theorem claim3_output_rows_witness :
    main_run idFn idFn true zeroMesh originIntp argvGood
      = ⟨0, specRows cfgGood2 (fieldFns idFn idFn true zeroMesh) originIntp,
          []⟩ ∧
    (specRows cfgGood2 (fieldFns idFn idFn true zeroMesh) originIntp).length
      = cfgGood2.nx.toNat * cfgGood2.ny.toNat ∧
    (∀ i j, i < cfgGood2.nx.toNat → j < cfgGood2.ny.toNat →
      (specRows cfgGood2 (fieldFns idFn idFn true zeroMesh)
          originIntp)[i * cfgGood2.ny.toNat + j]?
        = some { x := xCoord cfgGood2 i, y := yCoord cfgGood2 j,
                 vals := (List.range
                     (fieldFns idFn idFn true zeroMesh).length).map
                   fun k => sample_fields cfgGood2
                     (fieldFns idFn idFn true zeroMesh) originIntp
                     (fun _ _ => 0) i
                     ((fieldFns idFn idFn true zeroMesh).length * j + k) }) :=
  claim3_output_rows idFn idFn true zeroMesh originIntp argvGood
    cfgGood cfgGood2 parse_good grid_good

/-- C5: two runs on the same arguments, snapshot and interpolation that
differ only in the geometry policy agree on exit status, row count, both
coordinate columns and the whole velocity column, which sits at value
index 1 because registration order is D2c first and vel second; only the
strain-rate column at index 0 may differ. -/
theorem claim5_geometry_velocity (sqrtFn logFn : ℚ → ℚ) (m : SourceMesh)
    (intp : Interp) (argv : List Token) :
    (main_run sqrtFn logFn true m intp argv).exitCode
      = (main_run sqrtFn logFn false m intp argv).exitCode ∧
    (main_run sqrtFn logFn true m intp argv).rows.length
      = (main_run sqrtFn logFn false m intp argv).rows.length ∧
    (main_run sqrtFn logFn true m intp argv).rows.map Row.x
      = (main_run sqrtFn logFn false m intp argv).rows.map Row.x ∧
    (main_run sqrtFn logFn true m intp argv).rows.map Row.y
      = (main_run sqrtFn logFn false m intp argv).rows.map Row.y ∧
    (main_run sqrtFn logFn true m intp argv).rows.map (fun r => r.vals[1]?)
      = (main_run sqrtFn logFn false m intp argv).rows.map
          fun r => r.vals[1]? := by
  cases hp : parse_arguments argv with
  | error e => simp [main_run, hp]
  | ok cfg =>
    cases hc : configure_grid cfg with
    | error e => simp [main_run, hp, hc]
    | ok cfg2 =>
      rw [main_run_ok sqrtFn logFn true m intp argv cfg cfg2 hp hc,
          main_run_ok sqrtFn logFn false m intp argv cfg cfg2 hp hc]
      refine ⟨rfl, ?_, ?_, ?_, ?_⟩
      · rw [length_grid, length_grid]
      · exact map_grid _ _ _ _ _ fun i j => rfl
      · exact map_grid _ _ _ _ _ fun i j => rfl
      · exact map_grid _ _ _ _ _ fun i j => rfl

/-- C5 witness: the claim instantiated at the specification example run. -/
theorem claim5_geometry_velocity_witness :
    (main_run idFn idFn true zeroMesh originIntp argvGood).exitCode
      = (main_run idFn idFn false zeroMesh originIntp argvGood).exitCode ∧
    (main_run idFn idFn true zeroMesh originIntp argvGood).rows.length
      = (main_run idFn idFn false zeroMesh originIntp argvGood).rows.length ∧
    (main_run idFn idFn true zeroMesh originIntp argvGood).rows.map Row.x
      = (main_run idFn idFn false zeroMesh originIntp argvGood).rows.map
          Row.x ∧
    (main_run idFn idFn true zeroMesh originIntp argvGood).rows.map Row.y
      = (main_run idFn idFn false zeroMesh originIntp argvGood).rows.map
          Row.y ∧
    (main_run idFn idFn true zeroMesh originIntp argvGood).rows.map
        (fun r => r.vals[1]?)
      = (main_run idFn idFn false zeroMesh originIntp argvGood).rows.map
          fun r => r.vals[1]? :=
  claim5_geometry_velocity idFn idFn zeroMesh originIntp argvGood

/-- A seven-token argv whose xmin token has no numeric prefix; the other
values match the specification example. -/
def argvBadTok : List Token :=
  [.other, .other, .other, .numeric 0 0, .numeric 1 1,
   .numeric 2 2, .numeric 4 4]

lemma parse_badTok : parse_arguments argvBadTok = .ok cfgGood := rfl

lemma run_good_exit :
    (main_run idFn idFn true zeroMesh originIntp argvGood).exitCode = 0 := by
  rw [main_run_ok idFn idFn true zeroMesh originIntp argvGood cfgGood cfgGood2
      parse_good grid_good]

/-- C8 counterexample: the xmin token of argvBadTok is non-numeric, yet the
run succeeds with exit status 0 and writes all eight rows, because atof
silently reads the token as 0 and the ordering checks pass. -/
theorem claim8_counterexample :
    argvBadTok[2]? = some Token.other ∧
    (main_run idFn idFn true zeroMesh originIntp argvBadTok).exitCode = 0 ∧
    (main_run idFn idFn true zeroMesh originIntp argvBadTok).rows.length = 8 := by
  refine ⟨rfl, ?_, ?_⟩
  · rw [main_run_ok idFn idFn true zeroMesh originIntp argvBadTok cfgGood
        cfgGood2 parse_badTok grid_good]
  · rw [main_run_ok idFn idFn true zeroMesh originIntp argvBadTok cfgGood
        cfgGood2 parse_badTok grid_good]
    dsimp only
    rw [length_grid]
    decide

/-- C8 amended: a non-numeric bound token is read as 0 by atof rather than
rejected; given a positive ny reading, validation fails, with exit status 1,
a diagnostic and no rows, exactly when the resulting numeric bounds violate
the ordering contract, and succeeds with those readings otherwise. -/
theorem claim8_nonnumeric_amended (t0 t1 t2 t3 t4 t5 t6 : Token) :
    atof Token.other = 0 ∧
    (0 < atoi t6 → (atof t4 ≤ atof t2 ∨ atof t5 ≤ atof t3) →
      parse_arguments [t0, t1, t2, t3, t4, t5, t6] = .error .boundsMsg ∧
      ∀ (sqrtFn logFn : ℚ → ℚ) (axi : Bool) (m : SourceMesh) (intp : Interp),
        main_run sqrtFn logFn axi m intp [t0, t1, t2, t3, t4, t5, t6]
          = ⟨1, [], [.boundsMsg]⟩) ∧
    (0 < atoi t6 → atof t2 < atof t4 → atof t3 < atof t5 →
      parse_arguments [t0, t1, t2, t3, t4, t5, t6]
        = .ok { filename := t1, xmin := atof t2, ymin := atof t3,
                xmax := atof t4, ymax := atof t5, ny := atoi t6 }) := by
  refine ⟨rfl, ?_, ?_⟩
  · intro h6 hbad
    have hpe : parse_arguments [t0, t1, t2, t3, t4, t5, t6]
        = .error .boundsMsg := by
      simp only [parse_arguments]
      rw [if_neg (not_le.mpr h6), if_pos hbad]
    exact ⟨hpe, fun sqrtFn logFn axi m intp => by simp only [main_run, hpe]⟩
  · intro h6 hx hy
    simp only [parse_arguments]
    rw [if_neg (not_le.mpr h6),
        if_neg (by push_neg; exact ⟨hx, hy⟩)]

/-- C8 amended witness: instantiated at argvBadTok, whose parse succeeds
with the non-numeric xmin read as 0. -/
theorem claim8_nonnumeric_amended_witness :
    atof Token.other = 0 ∧
    (0 < atoi (Token.numeric 4 4) →
      (atof (Token.numeric 1 1) ≤ atof Token.other ∨
       atof (Token.numeric 2 2) ≤ atof (Token.numeric 0 0)) →
      parse_arguments [Token.other, Token.other, Token.other,
          Token.numeric 0 0, Token.numeric 1 1, Token.numeric 2 2,
          Token.numeric 4 4] = .error .boundsMsg ∧
      ∀ (sqrtFn logFn : ℚ → ℚ) (axi : Bool) (m : SourceMesh) (intp : Interp),
        main_run sqrtFn logFn axi m intp [Token.other, Token.other,
            Token.other, Token.numeric 0 0, Token.numeric 1 1,
            Token.numeric 2 2, Token.numeric 4 4]
          = ⟨1, [], [.boundsMsg]⟩) ∧
    (0 < atoi (Token.numeric 4 4) →
      atof Token.other < atof (Token.numeric 1 1) →
      atof (Token.numeric 0 0) < atof (Token.numeric 2 2) →
      parse_arguments [Token.other, Token.other, Token.other,
          Token.numeric 0 0, Token.numeric 1 1, Token.numeric 2 2,
          Token.numeric 4 4]
        = .ok { filename := Token.other, xmin := atof Token.other,
                ymin := atof (Token.numeric 0 0),
                xmax := atof (Token.numeric 1 1),
                ymax := atof (Token.numeric 2 2),
                ny := atoi (Token.numeric 4 4) }) :=
  claim8_nonnumeric_amended Token.other Token.other Token.other
    (Token.numeric 0 0) (Token.numeric 1 1) (Token.numeric 2 2)
    (Token.numeric 4 4)

/-- C10 counterexample: on a successful run the trace places
register_fields before the snapshot restore, so the claimed order, with
restore preceding registration, is not the executed one. -/
theorem claim10_counterexample :
    (main_run idFn idFn true zeroMesh originIntp argvGood).exitCode = 0 ∧
    main_trace argvGood
      = [.validateArgs, .planGrid, .registerFields, .restoreSnapshot,
         .computeFields, .allocateBuffer, .sampleGrid, .writeRows,
         .cleanup] ∧
    main_trace argvGood
      ≠ [.validateArgs, .planGrid, .restoreSnapshot, .registerFields,
         .computeFields, .allocateBuffer, .sampleGrid, .writeRows,
         .cleanup] ∧
    (main_trace argvGood).indexOf Step.registerFields
      < (main_trace argvGood).indexOf Step.restoreSnapshot := by
  have ht : main_trace argvGood
      = [.validateArgs, .planGrid, .registerFields, .restoreSnapshot,
         .computeFields, .allocateBuffer, .sampleGrid, .writeRows,
         .cleanup] := by
    simp only [main_trace, parse_good, grid_good]
  refine ⟨run_good_exit, ht, ?_, ?_⟩
  · rw [ht]
    decide
  · rw [ht]
    decide

/-- C10 amended: in every successful run the stages execute as validate,
plan grid, register fields, restore snapshot, compute kernels, allocate
buffer, sample, write, cleanup; in particular field registration precedes
the snapshot restore. -/
theorem claim10_stage_order_amended (sqrtFn logFn : ℚ → ℚ) (axi : Bool)
    (m : SourceMesh) (intp : Interp) (argv : List Token)
    (h : (main_run sqrtFn logFn axi m intp argv).exitCode = 0) :
    main_trace argv
      = [.validateArgs, .planGrid, .registerFields, .restoreSnapshot,
         .computeFields, .allocateBuffer, .sampleGrid, .writeRows,
         .cleanup] := by
  cases hp : parse_arguments argv with
  | error e => simp [main_run, hp] at h
  | ok cfg =>
    cases hc : configure_grid cfg with
    | error e => simp [main_run, hp, hc] at h
    | ok cfg2 => simp [main_trace, hp, hc]

/-- C10 amended witness: the example run succeeds and executes the stages
in the amended order. -/
theorem claim10_stage_order_amended_witness :
    main_trace argvGood
      = [.validateArgs, .planGrid, .registerFields, .restoreSnapshot,
         .computeFields, .allocateBuffer, .sampleGrid, .writeRows,
         .cleanup] :=
  claim10_stage_order_amended idFn idFn true zeroMesh originIntp argvGood
    run_good_exit

end GetData
